import Mathlib

/-!
Verification development for the OptionsTaxHub lot-reconstruction and
wash-sale engine.  The Python modules `models.py`, `csv_parser.py`,
`wash_sale.py`, `tax_engine.py` and `harvesting.py` are shallowly embedded
below: machine floats become exact rationals, `datetime.date` becomes an
integer day number (ordering and day arithmetic are all the code uses),
Python dictionaries become insertion-ordered association lists, and the
human-readable warning / explanation strings become structured messages
carrying the same data.
-/

namespace OptionsTaxHub

/-! ## Data model (models.py)

`TransCode` mirrors the enum exactly as written in `models.py` lines 22-33:
it has *only* the seven members listed there.  `csv_parser.py` additionally
refers to `TransCode.OASGN`, `TransCode.SPR` and `TransCode.OCA`, which do
not exist; in Python that attribute access raises `AttributeError`, which the
embedding renders as the `Except.error` branch of `transactions_to_tax_lots`.
-/

inductive TransCode where
  | BUY
  | SELL
  | STO
  | BTC
  | BTO
  | STC
  | OEXP
deriving DecidableEq, Repr

inductive AssetType where
  | STOCK
  | OPTION
deriving DecidableEq, Repr

inductive FilingStatus where
  | SINGLE
  | MARRIED_FILING_JOINTLY
  | MARRIED_FILING_SEPARATELY
  | HEAD_OF_HOUSEHOLD
deriving DecidableEq, Repr

structure Transaction where
  activity_date : Int
  process_date : Option Int := none
  settle_date : Option Int := none
  instrument : String
  description : String := ""
  trans_code : TransCode
  quantity : ℚ
  price : ℚ
  amount : ℚ := 0
  asset_type : AssetType := .STOCK
deriving DecidableEq, Repr

structure TaxLot where
  symbol : String
  quantity : ℚ
  cost_basis_per_share : ℚ
  total_cost_basis : ℚ
  purchase_date : Int
  current_price : Option ℚ := none
  asset_type : AssetType := .STOCK
  unrealized_pnl : Option ℚ := none
  unrealized_pnl_pct : Option ℚ := none
  holding_period_days : Option Int := none
  is_long_term : Option Bool := none
  wash_sale_disallowed : ℚ := 0
deriving DecidableEq, Repr

structure WashSaleFlag where
  symbol : String
  sale_date : Int
  sale_quantity : ℚ
  sale_loss : ℚ
  repurchase_date : Int
  repurchase_quantity : ℚ
  disallowed_loss : ℚ
  adjusted_cost_basis : ℚ
deriving DecidableEq, Repr

structure TaxProfile where
  filing_status : FilingStatus := .SINGLE
  estimated_annual_income : ℚ := 75000
  state : String := ""
  tax_year : Int := 2025
deriving DecidableEq, Repr

structure TaxEstimate where
  short_term_rate : ℚ
  long_term_rate : ℚ
  niit_applies : Bool
  effective_rate : ℚ
  estimated_tax : ℚ
deriving DecidableEq, Repr

/-- Structured rendering of the warning strings appended by
`_close_lots_fifo`: the first constructor is the
"... but no open lots found (short sale or prior history not in CSV)"
message, the second the "... N shares could not be matched to open lots"
message, carrying the same data the f-strings interpolate. -/
inductive Warning where
  | noOpenLots (symbol : String) (quantity : ℚ) (activityDate : Int)
  | unmatched (symbol : String) (remainder : ℚ) (activityDate : Int)
deriving DecidableEq, Repr

/-! ## Python `round(x, 2)` on exact rationals (banker's rounding) -/

def qfloor (x : ℚ) : ℤ := Int.fdiv x.num x.den

def roundHalfEven (x : ℚ) : ℤ :=
  let n := qfloor x
  let f := x - (n : ℚ)
  if f < 1/2 then n
  else if 1/2 < f then n + 1
  else if n % 2 = 0 then n else n + 1

def round2 (x : ℚ) : ℚ := (roundHalfEven (x * 100) : ℚ) / 100

/-! ## FIFO lot aggregation (csv_parser.py lines 331-453)

The mutable `open_lots: dict[str, list[TaxLot]]` becomes an
insertion-ordered association list; Python dicts preserve key insertion
order, which the final flattening step observes. -/

abbrev OpenLots := List (String × List TaxLot)

def lookupLots : OpenLots → String → Option (List TaxLot)
  | [], _ => none
  | (k, v) :: rest, s => if k = s then some v else lookupLots rest s

/-- Write `open_lots[symbol] = v`: replaces the first binding of the key, or
appends a fresh binding at the end (Python dict insertion order). -/
def setLots : OpenLots → String → List TaxLot → OpenLots
  | [], s, v => [(s, v)]
  | (k, w) :: rest, s, v =>
      if k = s then (s, v) :: rest else (k, w) :: setLots rest s v

/-- The `TaxLot(...)` literal built by `_add_lot` (csv_parser.py lines
358-365). -/
def newLotOf (symbol : String) (txn : Transaction)
    (assetType : Option AssetType) : TaxLot :=
  { symbol := symbol
    quantity := txn.quantity
    cost_basis_per_share := txn.price
    total_cost_basis := txn.price * txn.quantity
    purchase_date := txn.activity_date
    asset_type := assetType.getD txn.asset_type }

/-- `_add_lot` (csv_parser.py lines 351-368). -/
def addLot (openLots : OpenLots) (symbol : String) (txn : Transaction)
    (assetType : Option AssetType) : OpenLots :=
  setLots openLots symbol
    (((lookupLots openLots symbol).getD []) ++ [newLotOf symbol txn assetType])

/-- The `while` loop of `_close_lots_fifo` (csv_parser.py lines 387-397):
pops fully consumed lots from the front, shrinks the first partially
consumed lot (re-deriving its total cost basis), and returns the
unconsumed remainder of the sale quantity together with the surviving
lots. -/
def consumeFifo : ℚ → List TaxLot → ℚ × List TaxLot
  | remaining, [] => (remaining, [])
  | remaining, lot :: rest =>
      if remaining ≤ 0 then (remaining, lot :: rest)
      else if lot.quantity ≤ remaining then
        consumeFifo (remaining - lot.quantity) rest
      else
        (0, { lot with
                quantity := lot.quantity - remaining
                total_cost_basis :=
                  lot.cost_basis_per_share * (lot.quantity - remaining) } :: rest)

/-- `_close_lots_fifo` (csv_parser.py lines 371-403). -/
def closeLotsFifo (openLots : OpenLots) (symbol : String) (txn : Transaction)
    (warnings : List Warning) : OpenLots × List Warning :=
  match lookupLots openLots symbol with
  | none =>
      (openLots, warnings ++ [.noOpenLots symbol txn.quantity txn.activity_date])
  | some [] =>
      (openLots, warnings ++ [.noOpenLots symbol txn.quantity txn.activity_date])
  | some (lot :: rest) =>
      let r := consumeFifo txn.quantity (lot :: rest)
      (setLots openLots symbol r.2,
       if 0 < r.1 then warnings ++ [.unmatched symbol r.1 txn.activity_date]
       else warnings)

/-- The loop body of `_remove_lots_fifo` (csv_parser.py lines 336-348):
fully consumed lots are collected and removed, a partially consumed lot is
shrunk in place with its total cost basis re-derived. -/
def removeFifo : ℚ → List TaxLot → List TaxLot
  | _, [] => []
  | remaining, lot :: rest =>
      if remaining ≤ 0 then lot :: rest
      else if lot.quantity ≤ remaining then
        removeFifo (remaining - lot.quantity) rest
      else
        { lot with
            quantity := lot.quantity - remaining
            total_cost_basis :=
              lot.cost_basis_per_share * (lot.quantity - remaining) } :: rest

/-- `_remove_lots_fifo` (csv_parser.py lines 331-348). -/
def remove_lots_fifo (openLots : OpenLots) (symbol : String) (quantity : ℚ) :
    OpenLots :=
  match lookupLots openLots symbol with
  | none => openLots
  | some lots => setLots openLots symbol (removeFifo quantity lots)

/-- Stable insertion preserving original order on equal dates. -/
def insertByDate (x : Transaction) : List Transaction → List Transaction
  | [] => [x]
  | y :: ys =>
      if x.activity_date ≤ y.activity_date then x :: y :: ys
      else y :: insertByDate x ys

/-- `sorted(transactions, key=lambda t: t.activity_date)` — stable ascending
sort by activity date. -/
def sortTxnsByDate (txs : List Transaction) : List Transaction :=
  txs.foldr insertByDate []

def attrErr : String := "AttributeError: type object TransCode has no attribute OASGN"

/-- The dispatch loop of `transactions_to_tax_lots` (csv_parser.py lines
427-446).  For any transaction whose code is not BUY/BTO/SELL/STC, Python
evaluates the tuple `(TransCode.OEXP, TransCode.OASGN)` in the third
`elif`, and `TransCode.OASGN` raises `AttributeError` because `models.py`
does not define that member; hence every such transaction aborts the
aggregation with an error. -/
def processTxns : List Transaction → OpenLots → List Warning →
    Except String (OpenLots × List Warning)
  | [], o, w => .ok (o, w)
  | t :: rest, o, w =>
      match t.trans_code with
      | .BUY | .BTO => processTxns rest (addLot o t.instrument t none) w
      | .SELL | .STC =>
          let r := closeLotsFifo o t.instrument t w
          processTxns rest r.1 r.2
      | _ => .error attrErr

def flattenLots (o : OpenLots) : List TaxLot := (o.map Prod.snd).flatten

/-- `transactions_to_tax_lots` (csv_parser.py lines 406-453). -/
def transactions_to_tax_lots (txs : List Transaction) :
    Except String (List TaxLot × List Warning) :=
  match processTxns (sortTxnsByDate txs) [] [] with
  | .error e => .error e
  | .ok (o, w) => .ok (flattenLots o, w)

/-! ## Quantity bookkeeping helpers used by the claims -/

def lotsQtySum (lots : List TaxLot) : ℚ := (lots.map TaxLot.quantity).sum

def openQty (o : OpenLots) (s : String) : ℚ :=
  lotsQtySum ((lookupLots o s).getD [])

def symQtySum (lots : List TaxLot) (s : String) : ℚ :=
  lotsQtySum (lots.filter fun l => l.symbol = s)

def boughtQty (txs : List Transaction) (s : String) : ℚ :=
  ((txs.filter fun t =>
      (t.trans_code = .BUY ∨ t.trans_code = .BTO) ∧ t.instrument = s).map
    Transaction.quantity).sum

def soldQty (txs : List Transaction) (s : String) : ℚ :=
  ((txs.filter fun t =>
      (t.trans_code = .SELL ∨ t.trans_code = .STC) ∧ t.instrument = s).map
    Transaction.quantity).sum

/-- Every lot stored in every bucket of the open-lots table satisfies `P`. -/
def LotsProp (P : TaxLot → Prop) (o : OpenLots) : Prop :=
  ∀ p ∈ o, ∀ l ∈ p.2, P l

/-- Well-formedness of the open-lots table: keys are distinct (Python dict
keys always are) and every stored lot carries the symbol it is filed
under. -/
def WFopen (o : OpenLots) : Prop :=
  (o.map Prod.fst).Nodup ∧ ∀ p ∈ o, ∀ l ∈ p.2, l.symbol = p.1

/-- The cost-basis identity of the spec: `total_cost_basis =
cost_basis_per_share * quantity`. -/
def costBasisIdent (l : TaxLot) : Prop :=
  l.total_cost_basis = l.cost_basis_per_share * l.quantity

/-! ## Wash-sale engine (wash_sale.py) -/

def WASH_SALE_WINDOW_DAYS : Int := 30

/-- `used_buy_quantities.get(buy_idx, 0)` on the `buy index -> quantity`
dictionary of wash_sale.py line 66. -/
def usedGet : List (Nat × ℚ) → Nat → ℚ
  | [], _ => 0
  | (i, q) :: rest, j => if i = j then q else usedGet rest j

/-- The FIFO cost-basis loop of `detect_wash_sales` (wash_sale.py lines
85-98): walk the same-symbol earlier buys, skipping quantity recorded in
`used`, and accumulate `matched * buy.price` until the sale quantity is
covered. -/
def sellCostBasis (used : List (Nat × ℚ)) :
    ℚ → List (Nat × Transaction) → ℚ
  | _, [] => 0
  | remaining, (i, b) :: rest =>
      if remaining ≤ 0 then 0
      else
        let available := b.quantity - usedGet used i
        if available ≤ 0 then sellCostBasis used remaining rest
        else
          min available remaining * b.price +
            sellCostBasis used (remaining - min available remaining) rest

/-- The `repurchases` comprehension of `detect_wash_sales` (wash_sale.py
lines 112-120), including its redundant repetition of the window-start
bound. -/
def repurchaseWindow (sell : Transaction) (buysSorted : List Transaction) :
    List (Nat × Transaction) :=
  buysSorted.enum.filter fun p =>
    decide (p.2.instrument = sell.instrument ∧
      sell.activity_date - WASH_SALE_WINDOW_DAYS ≤ p.2.activity_date ∧
      p.2.activity_date ≤ sell.activity_date + WASH_SALE_WINDOW_DAYS ∧
      p.2.activity_date ≠ sell.activity_date ∧
      sell.activity_date - WASH_SALE_WINDOW_DAYS ≤ p.2.activity_date)

/-- The `qualifying_repurchases` pass of `detect_wash_sales` (wash_sale.py
lines 124-129): keeps only entries dated strictly after
`sale_date - 30 days`. -/
def qualifyingRepurchases (sell : Transaction)
    (buysSorted : List Transaction) : List (Nat × Transaction) :=
  (repurchaseWindow sell buysSorted).filter fun p =>
    decide (sell.activity_date - WASH_SALE_WINDOW_DAYS < p.2.activity_date)

/-- The disallowance rule of `detect_wash_sales` (wash_sale.py lines
137-142): the full loss when the qualifying repurchase quantity covers the
sale quantity, otherwise a linear proration. -/
def washDisallowed (loss saleQty repurchaseQty : ℚ) : ℚ :=
  if saleQty ≤ repurchaseQty then loss
  else loss * (repurchaseQty / saleQty)

/-- Python's `min(..., key=...)`: the first entry with the minimal
activity date. -/
def minByDate : Nat × Transaction → List (Nat × Transaction) →
    Nat × Transaction
  | best, [] => best
  | best, x :: rest =>
      minByDate (if x.2.activity_date < best.2.activity_date then x else best)
        rest

/-- One iteration of the `for sell in sells_sorted` loop of
`detect_wash_sales` (wash_sale.py lines 68-172), producing the flag to
append, if any.  `used` is the `used_buy_quantities` dictionary; the source
initialises it and reads it but never writes to it, and the embedding
mirrors that faithfully (see `processSells`). -/
def sellFlag (used : List (Nat × ℚ)) (buysSorted : List Transaction)
    (sell : Transaction) : Option WashSaleFlag :=
  let symbolBuys := buysSorted.enum.filter fun p =>
    decide (p.2.instrument = sell.instrument ∧
      p.2.activity_date ≤ sell.activity_date)
  if symbolBuys.isEmpty then none
  else
    let total_cost_basis := sellCostBasis used sell.quantity symbolBuys
    let sale_proceeds := sell.quantity * sell.price
    let loss := total_cost_basis - sale_proceeds
    if loss ≤ 0 then none
    else
      match qualifyingRepurchases sell buysSorted with
      | [] => none
      | q :: qrest =>
          let total_repurchase_qty :=
            (((q :: qrest).map fun p => p.2.quantity).sum)
          let disallowed_loss := washDisallowed loss sell.quantity
            total_repurchase_qty
          let earliest := minByDate q qrest
          let original_cost :=
            earliest.2.price * min earliest.2.quantity sell.quantity
          let adjusted_cost := original_cost + disallowed_loss
          some
            { symbol := sell.instrument
              sale_date := sell.activity_date
              sale_quantity := sell.quantity
              sale_loss := loss
              repurchase_date := earliest.2.activity_date
              repurchase_quantity := min total_repurchase_qty sell.quantity
              disallowed_loss := round2 disallowed_loss
              adjusted_cost_basis := round2 adjusted_cost }

/-- The sell loop of `detect_wash_sales`.  The `used` dictionary is carried
through unchanged because the Python source never updates
`used_buy_quantities` after creating it. -/
def processSells (buysSorted : List Transaction) (used : List (Nat × ℚ)) :
    List Transaction → List WashSaleFlag → List WashSaleFlag
  | [], flags => flags
  | sell :: rest, flags =>
      match sellFlag used buysSorted sell with
      | none => processSells buysSorted used rest flags
      | some flag => processSells buysSorted used rest (flags ++ [flag])

def isBuyCode (t : Transaction) : Bool :=
  t.trans_code = TransCode.BUY ∨ t.trans_code = TransCode.BTO

def isSellCode (t : Transaction) : Bool :=
  t.trans_code = TransCode.SELL ∨ t.trans_code = TransCode.STC

/-- `detect_wash_sales` (wash_sale.py lines 29-174). -/
def detect_wash_sales (transactions : List Transaction) :
    List WashSaleFlag :=
  let buys_sorted := sortTxnsByDate (transactions.filter isBuyCode)
  let sells_sorted := sortTxnsByDate (transactions.filter isSellCode)
  processSells buys_sorted [] sells_sorted []

/-- Structured rendering of the explanation string returned by
`check_prospective_wash_sale_risk`: empty when there is no risk, otherwise
the data interpolated into the message (symbol, days since the latest
recent buy, its date, and the suggested safe date). -/
inductive RiskNote where
  | empty
  | washRisk (symbol : String) (daysAgo : Int) (latestBuyDate : Int)
      (safeDate : Int)
deriving DecidableEq, Repr

/-- Python's `max(..., key=...)`: the first entry with the maximal
activity date. -/
def maxByDate : Transaction → List Transaction → Transaction
  | best, [] => best
  | best, x :: rest =>
      maxByDate (if best.activity_date < x.activity_date then x else best) rest

/-- `check_prospective_wash_sale_risk` (wash_sale.py lines 177-223); the
ambient `date.today()` default becomes the explicit `reference_date`
argument. -/
def check_prospective_wash_sale_risk (symbol : String)
    (transactions : List Transaction) (reference_date : Int) :
    Bool × RiskNote :=
  let window_start := reference_date - WASH_SALE_WINDOW_DAYS
  let recent_buys := transactions.filter fun t =>
    decide (t.instrument = symbol ∧
      (t.trans_code = TransCode.BUY ∨ t.trans_code = TransCode.BTO) ∧
      window_start ≤ t.activity_date ∧ t.activity_date ≤ reference_date)
  match recent_buys with
  | [] => (false, .empty)
  | b :: rest =>
      let latest_buy := maxByDate b rest
      (true, .washRisk symbol (reference_date - latest_buy.activity_date)
        latest_buy.activity_date (latest_buy.activity_date + 31))

/-- The per-flag lot mutation of `adjust_lots_for_wash_sales` (wash_sale.py
lines 244-260): the first lot matching the flag's symbol and repurchase
date receives the whole adjustment, then the scan stops (`break`). -/
def adjustFirstLot (flag : WashSaleFlag) : List TaxLot → List TaxLot
  | [] => []
  | lot :: rest =>
      if lot.symbol = flag.symbol ∧ lot.purchase_date = flag.repurchase_date
      then
        let per_share_adjustment :=
          if 0 < lot.quantity then flag.disallowed_loss / lot.quantity else 0
        let cbps := lot.cost_basis_per_share + per_share_adjustment
        { lot with
            wash_sale_disallowed :=
              lot.wash_sale_disallowed + flag.disallowed_loss
            cost_basis_per_share := cbps
            total_cost_basis := cbps * lot.quantity } :: rest
      else lot :: adjustFirstLot flag rest

/-- `adjust_lots_for_wash_sales` (wash_sale.py lines 226-262). -/
def adjust_lots_for_wash_sales (tax_lots : List TaxLot)
    (wash_sale_flags : List WashSaleFlag) : List TaxLot :=
  wash_sale_flags.foldl (fun lots flag => adjustFirstLot flag lots) tax_lots

/-! ## Tax engine (tax_engine.py)

Bracket tables are ordered `(upper bound, rate)` pairs; the terminating
`float("inf")` bound becomes `none`. -/

abbrev Brackets := List (Option ℚ × ℚ)

def LTCG_BRACKETS_2025 : FilingStatus → Brackets
  | .SINGLE => [(some 48350, 0), (some 533400, 0.15), (none, 0.20)]
  | .MARRIED_FILING_JOINTLY =>
      [(some 96700, 0), (some 600050, 0.15), (none, 0.20)]
  | .MARRIED_FILING_SEPARATELY =>
      [(some 48350, 0), (some 300000, 0.15), (none, 0.20)]
  | .HEAD_OF_HOUSEHOLD =>
      [(some 64750, 0), (some 566700, 0.15), (none, 0.20)]

def LTCG_BRACKETS_2026 : FilingStatus → Brackets
  | .SINGLE => [(some 49450, 0), (some 545500, 0.15), (none, 0.20)]
  | .MARRIED_FILING_JOINTLY =>
      [(some 98900, 0), (some 613700, 0.15), (none, 0.20)]
  | .MARRIED_FILING_SEPARATELY =>
      [(some 49450, 0), (some 306850, 0.15), (none, 0.20)]
  | .HEAD_OF_HOUSEHOLD =>
      [(some 66200, 0), (some 579600, 0.15), (none, 0.20)]

def ORDINARY_BRACKETS_2025 : FilingStatus → Brackets
  | .SINGLE =>
      [(some 11925, 0.10), (some 48475, 0.12), (some 103350, 0.22),
       (some 197300, 0.24), (some 250525, 0.32), (some 626350, 0.35),
       (none, 0.37)]
  | .MARRIED_FILING_JOINTLY =>
      [(some 23850, 0.10), (some 96950, 0.12), (some 206700, 0.22),
       (some 394600, 0.24), (some 501050, 0.32), (some 751600, 0.35),
       (none, 0.37)]
  | .MARRIED_FILING_SEPARATELY =>
      [(some 11925, 0.10), (some 48475, 0.12), (some 103350, 0.22),
       (some 197300, 0.24), (some 250525, 0.32), (some 375800, 0.35),
       (none, 0.37)]
  | .HEAD_OF_HOUSEHOLD =>
      [(some 17000, 0.10), (some 64850, 0.12), (some 103350, 0.22),
       (some 197300, 0.24), (some 250500, 0.32), (some 626350, 0.35),
       (none, 0.37)]

def ORDINARY_BRACKETS_2026 : FilingStatus → Brackets
  | .SINGLE =>
      [(some 12150, 0.10), (some 49475, 0.12), (some 105525, 0.22),
       (some 201450, 0.24), (some 255800, 0.32), (some 639750, 0.35),
       (none, 0.37)]
  | .MARRIED_FILING_JOINTLY =>
      [(some 24300, 0.10), (some 98950, 0.12), (some 211050, 0.22),
       (some 402900, 0.24), (some 511550, 0.32), (some 767550, 0.35),
       (none, 0.37)]
  | .MARRIED_FILING_SEPARATELY =>
      [(some 12150, 0.10), (some 49475, 0.12), (some 105525, 0.22),
       (some 201450, 0.24), (some 255800, 0.32), (some 383775, 0.35),
       (none, 0.37)]
  | .HEAD_OF_HOUSEHOLD =>
      [(some 17350, 0.10), (some 66200, 0.12), (some 105525, 0.22),
       (some 201450, 0.24), (some 255800, 0.32), (some 639750, 0.35),
       (none, 0.37)]

def NIIT_RATE : ℚ := 0.038

def NIIT_THRESHOLDS : FilingStatus → ℚ
  | .SINGLE => 200000
  | .MARRIED_FILING_JOINTLY => 250000
  | .MARRIED_FILING_SEPARATELY => 125000
  | .HEAD_OF_HOUSEHOLD => 200000

def CAPITAL_LOSS_DEDUCTION_LIMIT : ℚ := 3000

def CAPITAL_LOSS_DEDUCTION_LIMIT_MFS : ℚ := 1500

def get_ltcg_brackets (tax_year : Int) : FilingStatus → Brackets :=
  if 2026 ≤ tax_year then LTCG_BRACKETS_2026 else LTCG_BRACKETS_2025

def get_ordinary_brackets (tax_year : Int) : FilingStatus → Brackets :=
  if 2026 ≤ tax_year then ORDINARY_BRACKETS_2026 else ORDINARY_BRACKETS_2025

/-- The lookup loop shared by `get_marginal_ordinary_rate` and
`get_ltcg_rate`: the rate of the first bracket whose upper bound is at
least the income; an unbounded bracket always matches; the fallback after
the loop is unreachable in practice but kept from the source. -/
def rateFromBrackets : Brackets → ℚ → ℚ → ℚ
  | [], _, fallback => fallback
  | (some threshold, rate) :: rest, income, fallback =>
      if income ≤ threshold then rate else rateFromBrackets rest income fallback
  | (none, rate) :: _, _, _ => rate

/-- `get_marginal_ordinary_rate` (tax_engine.py lines 175-189). -/
def get_marginal_ordinary_rate (income : ℚ) (profile : TaxProfile) : ℚ :=
  rateFromBrackets (get_ordinary_brackets profile.tax_year
    profile.filing_status) income 0.37

/-- `get_ltcg_rate` (tax_engine.py lines 192-205). -/
def get_ltcg_rate (income : ℚ) (profile : TaxProfile) : ℚ :=
  rateFromBrackets (get_ltcg_brackets profile.tax_year profile.filing_status)
    income 0.20

/-- `check_niit` (tax_engine.py lines 208-215): strict comparison with the
filing-status threshold. -/
def check_niit (income : ℚ) (profile : TaxProfile) : Bool :=
  NIIT_THRESHOLDS profile.filing_status < income

/-- `calculate_tax_on_gain` (tax_engine.py lines 218-255). -/
def calculate_tax_on_gain (gain : ℚ) (is_long_term : Bool)
    (profile : TaxProfile) : TaxEstimate :=
  let income := profile.estimated_annual_income
  let niit_applies := check_niit income profile
  let base_rate :=
    if is_long_term then get_ltcg_rate income profile
    else get_marginal_ordinary_rate income profile
  let effective_rate := if niit_applies then base_rate + NIIT_RATE
    else base_rate
  { short_term_rate := get_marginal_ordinary_rate income profile
    long_term_rate := get_ltcg_rate income profile
    niit_applies := niit_applies
    effective_rate := effective_rate
    estimated_tax := gain * effective_rate }

/-- `calculate_tax_savings` (tax_engine.py lines 258-291). -/
def calculate_tax_savings (loss : ℚ) (is_long_term : Bool)
    (profile : TaxProfile) : ℚ :=
  if loss ≤ 0 then 0
  else |(calculate_tax_on_gain loss is_long_term profile).estimated_tax|

/-! ## Harvesting engine (harvesting.py) -/

/-- The body of the `for lot in tax_lots` loop of `compute_lot_metrics`
(harvesting.py lines 108-124). -/
def computeLotMetricsOne (reference_date : Int) (lot : TaxLot) : TaxLot :=
  let lot1 :=
    match lot.current_price with
    | none => lot
    | some cp =>
        let pnl := round2 ((cp - lot.cost_basis_per_share) * lot.quantity)
        let pct :=
          if 0 < lot.total_cost_basis then
            round2 (pnl / lot.total_cost_basis * 100)
          else 0
        { lot with unrealized_pnl := some pnl, unrealized_pnl_pct := some pct }
  { lot1 with
      holding_period_days := some (reference_date - lot.purchase_date)
      is_long_term := some (decide (365 < reference_date - lot.purchase_date)) }

/-- `compute_lot_metrics` (harvesting.py lines 91-126); the ambient
`date.today()` default becomes the explicit `reference_date` argument. -/
def compute_lot_metrics (tax_lots : List TaxLot) (reference_date : Int) :
    List TaxLot :=
  tax_lots.map (computeLotMetricsOne reference_date)

structure ReplacementCandidate where
  symbol : String
  name : String := ""
  reason : String
deriving DecidableEq, Repr

/-- One `{"symbol": ..., "name": ..., "reason": ...}` entry of the advisor
payload; `.get` defaults are applied at this boundary. -/
structure AiReplacement where
  symbol : String := ""
  name : String := ""
  reason : String := ""
deriving DecidableEq, Repr

/-- One value of the `ai_suggestions` dictionary: an optional
`"replacements"` list and the `"explanation"` text (defaulted to the
empty string by `.get`). -/
structure AiData where
  replacements : Option (List AiReplacement) := none
  explanation : String := ""
deriving DecidableEq, Repr

abbrev AiSuggestions := List (String × AiData)

def aiLookup : AiSuggestions → String → Option AiData
  | [], _ => none
  | (k, v) :: rest, s => if k = s then some v else aiLookup rest s

/-- `FALLBACK_REPLACEMENTS` (harvesting.py lines 42-88), keyed fallback
table; `fallbackDefault` is the `_DEFAULT` entry. -/
def fallbackDefault : List ReplacementCandidate :=
  [{ symbol := "VTI", name := "Vanguard Total Stock Market ETF",
     reason := "Broad US market exposure" },
   { symbol := "SPY", name := "SPDR S&P 500 ETF",
     reason := "S&P 500 index ETF" }]

def xlcCandidate (reason : String) : ReplacementCandidate :=
  { symbol := "XLC", name := "Communication Services Select Sector SPDR",
    reason := reason }

def FALLBACK_REPLACEMENTS (symbol : String) : List ReplacementCandidate :=
  if symbol = "AAPL" then
    [{ symbol := "XLK", name := "Technology Select Sector SPDR",
       reason := "Broad tech sector ETF" },
     { symbol := "QQQ", name := "Invesco QQQ Trust",
       reason := "Nasdaq-100 index ETF with heavy AAPL weight" }]
  else if symbol = "MSFT" then
    [{ symbol := "VGT", name := "Vanguard Information Technology ETF",
       reason := "Broad IT sector exposure" },
     { symbol := "IGV", name := "iShares Expanded Tech-Software ETF",
       reason := "Software sector ETF" }]
  else if symbol = "GOOGL" then
    [xlcCandidate "Communication services sector ETF",
     { symbol := "VOX", name := "Vanguard Communication Services ETF",
       reason := "Broad communication services exposure" }]
  else if symbol = "TSLA" then
    [{ symbol := "DRIV",
       name := "Global X Autonomous & Electric Vehicles ETF",
       reason := "EV and autonomous driving sector ETF" },
     { symbol := "QCLN", name := "First Trust NASDAQ Clean Edge Green Energy",
       reason := "Clean energy focus including EV" }]
  else if symbol = "NVDA" then
    [{ symbol := "SMH", name := "VanEck Semiconductor ETF",
       reason := "Broad semiconductor sector ETF" },
     { symbol := "SOXX", name := "iShares Semiconductor ETF",
       reason := "Semiconductor index exposure" }]
  else if symbol = "AMZN" then
    [{ symbol := "XLY", name := "Consumer Discretionary Select Sector SPDR",
       reason := "Consumer discretionary sector ETF" },
     { symbol := "IBUY", name := "Amplify Online Retail ETF",
       reason := "E-commerce focused ETF" }]
  else if symbol = "META" then
    [xlcCandidate "Communication services sector",
     { symbol := "SOCL", name := "Global X Social Media ETF",
       reason := "Social media focused ETF" }]
  else if symbol = "AMD" then
    [{ symbol := "SMH", name := "VanEck Semiconductor ETF",
       reason := "Semiconductor sector ETF" },
     { symbol := "PSI", name := "Invesco Dynamic Semiconductors ETF",
       reason := "Dynamic semiconductor exposure" }]
  else if symbol = "NFLX" then
    [xlcCandidate "Communication services sector",
     { symbol := "PEJ", name := "Invesco Dynamic Leisure & Entertainment ETF",
       reason := "Entertainment sector ETF" }]
  else if symbol = "DIS" then
    [{ symbol := "PEJ", name := "Invesco Dynamic Leisure & Entertainment ETF",
       reason := "Leisure and entertainment sector" },
     xlcCandidate "Communication services exposure"]
  else fallbackDefault

/-- `_get_replacements` (harvesting.py lines 264-294): advisor entries with
a non-empty ticker win; otherwise the static table. -/
def getReplacements (symbol : String) (ai : Option AiSuggestions) :
    List ReplacementCandidate :=
  match ai with
  | some suggestions =>
      match aiLookup suggestions symbol with
      | some data =>
          match data.replacements with
          | some rs =>
              (rs.filter fun r => r.symbol ≠ "").map fun r =>
                { symbol := r.symbol, name := r.name, reason := r.reason }
          | none => FALLBACK_REPLACEMENTS symbol
      | none => FALLBACK_REPLACEMENTS symbol
  | none => FALLBACK_REPLACEMENTS symbol

/-- `_get_ai_explanation` (harvesting.py lines 297-304). -/
def getAiExplanation (symbol : String) (ai : Option AiSuggestions) : String :=
  match ai with
  | some suggestions =>
      match aiLookup suggestions symbol with
      | some data => data.explanation
      | none => ""
  | none => ""

structure HarvestingSuggestion where
  symbol : String
  action : String := "SELL"
  quantity : ℚ
  current_price : Option ℚ := none
  cost_basis_per_share : ℚ
  estimated_loss : ℚ
  tax_savings_estimate : ℚ
  holding_period_days : Int
  is_long_term : Bool
  wash_sale_risk : Bool := false
  wash_sale_explanation : RiskNote := .empty
  replacement_candidates : List ReplacementCandidate := []
  ai_explanation : String := ""
  ai_generated : Bool := false
  priority : Int := 0
deriving DecidableEq, Repr

/-- The suggestion constructed for one loss lot by the loop of
`generate_suggestions` (harvesting.py lines 215-254). -/
def mkSuggestion (reference_date : Int) (transactions : List Transaction)
    (tax_profile : TaxProfile) (ai : Option AiSuggestions) (lot : TaxLot) :
    HarvestingSuggestion :=
  let loss_amount := |lot.unrealized_pnl.getD 0|
  let is_lt := lot.is_long_term.getD false
  let tax_savings := calculate_tax_savings loss_amount is_lt tax_profile
  let risk := check_prospective_wash_sale_risk lot.symbol transactions
    reference_date
  { symbol := lot.symbol
    action := "SELL"
    quantity := lot.quantity
    current_price := lot.current_price
    cost_basis_per_share := lot.cost_basis_per_share
    estimated_loss := round2 loss_amount
    tax_savings_estimate := round2 tax_savings
    holding_period_days := lot.holding_period_days.getD 0
    is_long_term := is_lt
    wash_sale_risk := risk.1
    wash_sale_explanation := risk.2
    replacement_candidates := getReplacements lot.symbol ai
    ai_explanation := getAiExplanation lot.symbol ai
    ai_generated := ai.isSome ∧ (aiLookup (ai.getD []) lot.symbol).isSome
    priority := 0 }

/-- Stable descending insertion by `tax_savings_estimate`
(`list.sort(key=..., reverse=True)` is a stable descending sort). -/
def insertBySavings (x : HarvestingSuggestion) :
    List HarvestingSuggestion → List HarvestingSuggestion
  | [] => [x]
  | y :: ys =>
      if y.tax_savings_estimate ≤ x.tax_savings_estimate then x :: y :: ys
      else y :: insertBySavings x ys

def sortBySavings (l : List HarvestingSuggestion) :
    List HarvestingSuggestion :=
  l.foldr insertBySavings []

/-- The `priority = idx + 1` pass of `generate_suggestions`
(harvesting.py lines 258-259). -/
def withPriorities : Int → List HarvestingSuggestion →
    List HarvestingSuggestion
  | _, [] => []
  | n, s :: rest => { s with priority := n } :: withPriorities (n + 1) rest

def isLossLot (lot : TaxLot) : Bool :=
  match lot.unrealized_pnl with
  | some pnl => decide (pnl < 0)
  | none => false

/-- `generate_suggestions` (harvesting.py lines 185-261); the ambient
`date.today()` used by the nested prospective-risk check becomes the
explicit `reference_date` argument. -/
def generate_suggestions (reference_date : Int) (tax_lots : List TaxLot)
    (transactions : List Transaction) (tax_profile : TaxProfile)
    (ai : Option AiSuggestions) : List HarvestingSuggestion :=
  let loss_lots := tax_lots.filter isLossLot
  let suggestions := loss_lots.map
    (mkSuggestion reference_date transactions tax_profile ai)
  withPriorities 1 (sortBySavings suggestions)

/-! ## Concrete inputs used by counterexamples and witnesses -/

def mkTxn (d : Int) (sym : String) (c : TransCode) (q p : ℚ) : Transaction :=
  { activity_date := d, instrument := sym, trans_code := c,
    quantity := q, price := p }

/-- Sell-before-buy history: total bought (5) equals total sold (5). -/
def exC1 : List Transaction :=
  [mkTxn 1 "A" .SELL 5 10, mkTxn 2 "A" .BUY 5 10]

/-- Two buys at different prices followed by two sells that should drain
them in FIFO order. -/
def exC4 : List Transaction :=
  [mkTxn 0 "AAPL" .BUY 5 100, mkTxn 1 "AAPL" .BUY 5 200,
   mkTxn 2 "AAPL" .SELL 5 50, mkTxn 3 "AAPL" .SELL 5 50]

def sellC5 : Transaction := mkTxn 31 "AAPL" .SELL 10 50

def sameDayBuyC5 : Transaction := mkTxn 31 "AAPL" .BUY 10 60

/-- Loss sale with a same-day repurchase of the same symbol. -/
def exC5 : List Transaction :=
  [mkTxn 0 "AAPL" .BUY 10 100, sellC5, sameDayBuyC5]

def exC6sto : Transaction :=
  { activity_date := 0, instrument := "UPXI", trans_code := .STO,
    quantity := 1, price := 5, asset_type := .OPTION }

/-- Loss lot purchased ten days before the reference date 100. -/
def lotC8 : TaxLot :=
  { symbol := "AAPL", quantity := 10, cost_basis_per_share := 150,
    total_cost_basis := 1500, purchase_date := 90, current_price := some 140,
    unrealized_pnl := some (-100), unrealized_pnl_pct := some (-20/3),
    holding_period_days := some 10, is_long_term := some false }

/-- The same-symbol purchase that created `lotC8`, ten days old. -/
def buyC8 : Transaction := mkTxn 90 "AAPL" .BUY 10 150

def lotW : TaxLot :=
  { symbol := "AAPL", quantity := 10, cost_basis_per_share := 150,
    total_cost_basis := 1500, purchase_date := 90 }

def flagW : WashSaleFlag :=
  { symbol := "AAPL", sale_date := 95, sale_quantity := 10, sale_loss := 100,
    repurchase_date := 90, repurchase_quantity := 10, disallowed_loss := 100,
    adjusted_cost_basis := 1600 }

/-- The lot produced by adjusting `lotW` with `flagW`. -/
def lotWadj : TaxLot :=
  { symbol := "AAPL", quantity := 10, cost_basis_per_share := 160,
    total_cost_basis := 1600, purchase_date := 90,
    wash_sale_disallowed := 100 }

def lotOW : TaxLot :=
  { symbol := "A", quantity := 5, cost_basis_per_share := 10,
    total_cost_basis := 50, purchase_date := 0 }

def oW : OpenLots := [("A", [lotOW])]

/-- A sell of 8 shares against the 5 open shares of `oW`. -/
def sellW : Transaction := mkTxn 3 "A" .SELL 8 10

/-! ## Supporting lemmas: the open-lots association list -/

lemma lookupLots_setLots (o : OpenLots) (k s : String) (v : List TaxLot) :
    lookupLots (setLots o k v) s =
      if k = s then some v else lookupLots o s := by
  induction o with
  | nil => simp [setLots, lookupLots]
  | cons p rest ih =>
      obtain ⟨k', w⟩ := p
      by_cases hk : k' = k
      · subst hk
        by_cases hs : k' = s <;> simp [setLots, lookupLots, hs]
      · by_cases hs : k' = s
        · subst hs
          have : ¬ k = k' := fun h => hk h.symm
          simp [setLots, lookupLots, hk, this]
        · simp [setLots, lookupLots, hk, hs, ih]

lemma lookupLots_eq_none (o : OpenLots) (s : String) :
    lookupLots o s = none ↔ s ∉ o.map Prod.fst := by
  induction o with
  | nil => simp [lookupLots]
  | cons p rest ih =>
      obtain ⟨k, v⟩ := p
      by_cases hk : k = s
      · subst hk
        simp [lookupLots]
      · rw [List.map_cons, List.mem_cons]
        simp only [lookupLots, if_neg hk, ih, not_or]
        constructor
        · exact fun h => ⟨fun h1 => hk h1.symm, h⟩
        · exact fun h => h.2

lemma lookupLots_mem {o : OpenLots} {s : String} {v : List TaxLot}
    (h : lookupLots o s = some v) : (s, v) ∈ o := by
  induction o with
  | nil => simp [lookupLots] at h
  | cons p rest ih =>
      obtain ⟨k, w⟩ := p
      simp only [lookupLots] at h
      split at h
      case isTrue hk =>
        injection h with h
        subst hk
        subst h
        exact List.mem_cons_self _ _
      case isFalse hk =>
        exact List.mem_cons_of_mem _ (ih h)

lemma mem_setLots {o : OpenLots} {k s : String} {v w : List TaxLot}
    (h : (s, w) ∈ setLots o k v) : (s, w) ∈ o ∨ (s, w) = (k, v) := by
  induction o with
  | nil =>
      simp [setLots] at h
      simp [h]
  | cons p rest ih =>
      obtain ⟨k', v'⟩ := p
      simp only [setLots] at h
      split at h
      case isTrue hk =>
        rcases List.mem_cons.mp h with h1 | h1
        · right; exact h1
        · left; exact List.mem_cons_of_mem _ h1
      case isFalse hk =>
        rcases List.mem_cons.mp h with h1 | h1
        · left; rw [h1]; exact List.mem_cons_self _ _
        · rcases ih h1 with h2 | h2
          · left; exact List.mem_cons_of_mem _ h2
          · right; exact h2

lemma keys_setLots_mem {o : OpenLots} {k s : String} {v : List TaxLot}
    (h : s ∈ (setLots o k v).map Prod.fst) :
    s ∈ o.map Prod.fst ∨ s = k := by
  simp only [List.mem_map] at h
  obtain ⟨⟨s', w⟩, hmem, hfst⟩ := h
  simp at hfst
  subst hfst
  rcases mem_setLots hmem with h' | h'
  · left; exact List.mem_map_of_mem Prod.fst h'
  · right; simpa using congrArg Prod.fst h'

lemma nodup_keys_setLots {o : OpenLots} (k : String) (v : List TaxLot)
    (h : (o.map Prod.fst).Nodup) :
    ((setLots o k v).map Prod.fst).Nodup := by
  induction o with
  | nil => simp [setLots]
  | cons p rest ih =>
      obtain ⟨k', w⟩ := p
      rw [List.map_cons, List.nodup_cons] at h
      by_cases hk : k' = k
      · subst hk
        simp only [setLots, eq_self_iff_true, if_true, List.map_cons,
          List.nodup_cons]
        exact ⟨h.1, h.2⟩
      · simp only [setLots, if_neg hk, List.map_cons, List.nodup_cons]
        refine ⟨fun hmem => ?_, ih h.2⟩
        rcases keys_setLots_mem hmem with h' | h'
        · exact h.1 h'
        · exact hk h'

/-! ## Supporting lemmas: quantity sums -/

lemma lotsQtySum_nil : lotsQtySum [] = 0 := rfl

lemma lotsQtySum_cons (l : TaxLot) (ls : List TaxLot) :
    lotsQtySum (l :: ls) = l.quantity + lotsQtySum ls := by
  simp [lotsQtySum]

lemma lotsQtySum_append (a b : List TaxLot) :
    lotsQtySum (a ++ b) = lotsQtySum a + lotsQtySum b := by
  simp [lotsQtySum]

lemma lotsQtySum_nonneg {lots : List TaxLot}
    (h : ∀ l ∈ lots, 0 ≤ l.quantity) : 0 ≤ lotsQtySum lots := by
  induction lots with
  | nil => simp [lotsQtySum]
  | cons l ls ih =>
      rw [lotsQtySum_cons]
      have h1 := h l (by simp)
      have h2 := ih fun x hx => h x (by simp [hx])
      linarith

lemma openQty_setLots (o : OpenLots) (k s : String) (v : List TaxLot) :
    openQty (setLots o k v) s = if k = s then lotsQtySum v else openQty o s := by
  unfold openQty
  rw [lookupLots_setLots]
  by_cases hk : k = s <;> simp [hk]

lemma openQty_addLot (o : OpenLots) (sym s : String) (txn : Transaction)
    (ty : Option AssetType) :
    openQty (addLot o sym txn ty) s =
      openQty o s + (if sym = s then txn.quantity else 0) := by
  unfold addLot
  rw [openQty_setLots]
  by_cases hk : sym = s
  · subst hk
    rw [if_pos rfl, lotsQtySum_append]
    unfold openQty
    simp [lotsQtySum, newLotOf]
  · simp [hk]

/-! ## Supporting lemmas: FIFO consumption -/

lemma consumeFifo_forall {P : TaxLot → Prop}
    (hP : ∀ (lot : TaxLot) (r : ℚ), P lot → 0 < r → r < lot.quantity →
      P { lot with
            quantity := lot.quantity - r
            total_cost_basis := lot.cost_basis_per_share * (lot.quantity - r) })
    (q : ℚ) (lots : List TaxLot) (h : ∀ l ∈ lots, P l) :
    ∀ l ∈ (consumeFifo q lots).2, P l := by
  induction lots generalizing q with
  | nil => simp [consumeFifo]
  | cons lot rest ih =>
      simp only [consumeFifo]
      split
      · exact h
      case isFalse h0 =>
        split
        case isTrue hle =>
          exact ih (q - lot.quantity) fun l hl => h l (List.mem_cons_of_mem _ hl)
        case isFalse hgt =>
          intro l hl
          rcases List.mem_cons.mp hl with h1 | h1
          · subst h1
            exact hP lot q (h lot (List.mem_cons_self _ _))
              (lt_of_not_le h0) (lt_of_not_le hgt)
          · exact h l (List.mem_cons_of_mem _ h1)

lemma consumeFifo_sum (q : ℚ) (lots : List TaxLot)
    (hpos : ∀ l ∈ lots, 0 ≤ l.quantity) (hq : 0 ≤ q)
    (hle : q ≤ lotsQtySum lots) :
    (consumeFifo q lots).1 = 0 ∧
    lotsQtySum (consumeFifo q lots).2 = lotsQtySum lots - q := by
  induction lots generalizing q with
  | nil =>
      have : q = 0 := le_antisymm (by simpa [lotsQtySum] using hle) hq
      subst this
      simp [consumeFifo, lotsQtySum]
  | cons lot rest ih =>
      simp only [consumeFifo]
      split
      case isTrue h0 =>
        have : q = 0 := le_antisymm h0 hq
        subst this
        simp
      case isFalse h0 =>
        split
        case isTrue hle2 =>
          have hrest := ih (q - lot.quantity)
            (fun l hl => hpos l (List.mem_cons_of_mem _ hl))
            (by linarith)
            (by rw [lotsQtySum_cons] at hle; linarith)
          refine ⟨hrest.1, ?_⟩
          rw [hrest.2, lotsQtySum_cons]
          ring
        case isFalse hgt =>
          constructor
          · rfl
          · rw [lotsQtySum_cons, lotsQtySum_cons]
            simp only
            ring

lemma consumeFifo_excess (q : ℚ) (lots : List TaxLot)
    (hpos : ∀ l ∈ lots, 0 ≤ l.quantity) (hlt : lotsQtySum lots < q) :
    consumeFifo q lots = (q - lotsQtySum lots, []) := by
  induction lots generalizing q with
  | nil => simp [consumeFifo, lotsQtySum]
  | cons lot rest ih =>
      have hrest : 0 ≤ lotsQtySum rest :=
        lotsQtySum_nonneg fun l hl => hpos l (List.mem_cons_of_mem _ hl)
      have hlot : 0 ≤ lot.quantity := hpos lot (List.mem_cons_self _ _)
      rw [lotsQtySum_cons] at hlt
      simp only [consumeFifo]
      rw [if_neg (by push_neg; linarith), if_pos (by linarith)]
      rw [ih (q - lot.quantity)
        (fun l hl => hpos l (List.mem_cons_of_mem _ hl)) (by linarith)]
      rw [lotsQtySum_cons]
      ring_nf

lemma removeFifo_forall {P : TaxLot → Prop}
    (hP : ∀ (lot : TaxLot) (r : ℚ), P lot → 0 < r → r < lot.quantity →
      P { lot with
            quantity := lot.quantity - r
            total_cost_basis := lot.cost_basis_per_share * (lot.quantity - r) })
    (q : ℚ) (lots : List TaxLot) (h : ∀ l ∈ lots, P l) :
    ∀ l ∈ removeFifo q lots, P l := by
  induction lots generalizing q with
  | nil => simp [removeFifo]
  | cons lot rest ih =>
      simp only [removeFifo]
      split
      · exact h
      case isFalse h0 =>
        split
        case isTrue hle =>
          exact ih (q - lot.quantity) fun l hl => h l (List.mem_cons_of_mem _ hl)
        case isFalse hgt =>
          intro l hl
          rcases List.mem_cons.mp hl with h1 | h1
          · subst h1
            exact hP lot q (h lot (List.mem_cons_self _ _))
              (lt_of_not_le h0) (lt_of_not_le hgt)
          · exact h l (List.mem_cons_of_mem _ h1)

/-! ## Supporting lemmas: table-level invariants -/

lemma LotsProp_setLots {P : TaxLot → Prop} {o : OpenLots} {k : String}
    {v : List TaxLot} (h : LotsProp P o) (hv : ∀ l ∈ v, P l) :
    LotsProp P (setLots o k v) := by
  intro p hp l hl
  obtain ⟨s, w⟩ := p
  rcases mem_setLots hp with h1 | h1
  · exact h _ h1 l hl
  · injection h1 with h1 h2
    subst h2
    exact hv l hl

lemma LotsProp_getD {P : TaxLot → Prop} {o : OpenLots} (h : LotsProp P o)
    (s : String) : ∀ l ∈ (lookupLots o s).getD [], P l := by
  cases hlk : lookupLots o s with
  | none => simp
  | some v =>
      simpa using h _ (lookupLots_mem hlk)

lemma LotsProp_addLot {P : TaxLot → Prop} {o : OpenLots} {sym : String}
    {txn : Transaction} {ty : Option AssetType} (h : LotsProp P o)
    (hnew : P (newLotOf sym txn ty)) : LotsProp P (addLot o sym txn ty) := by
  unfold addLot
  refine LotsProp_setLots h fun l hl => ?_
  rcases List.mem_append.mp hl with h1 | h1
  · exact LotsProp_getD h sym l h1
  · rw [List.mem_singleton.mp h1]
    exact hnew

lemma LotsProp_closeLotsFifo {P : TaxLot → Prop}
    (hP : ∀ (lot : TaxLot) (r : ℚ), P lot → 0 < r → r < lot.quantity →
      P { lot with
            quantity := lot.quantity - r
            total_cost_basis := lot.cost_basis_per_share * (lot.quantity - r) })
    (o : OpenLots) (sym : String) (txn : Transaction) (w : List Warning)
    (h : LotsProp P o) : LotsProp P (closeLotsFifo o sym txn w).1 := by
  unfold closeLotsFifo
  cases hlk : lookupLots o sym with
  | none => exact h
  | some lots =>
      cases lots with
      | nil => exact h
      | cons lot rest =>
          simp only
          refine LotsProp_setLots h ?_
          exact consumeFifo_forall hP txn.quantity (lot :: rest)
            (h _ (lookupLots_mem hlk))

lemma WFopen_addLot (o : OpenLots) (sym : String) (txn : Transaction)
    (ty : Option AssetType) (h : WFopen o) : WFopen (addLot o sym txn ty) := by
  unfold addLot
  constructor
  · exact nodup_keys_setLots sym _ h.1
  · intro p hp l hl
    obtain ⟨s, v⟩ := p
    rcases mem_setLots hp with h1 | h1
    · exact h.2 _ h1 l hl
    · injection h1 with h1 h2
      subst h1
      subst h2
      rcases List.mem_append.mp hl with h2 | h2
      · cases hlk : lookupLots o s with
        | none => rw [hlk] at h2; simp at h2
        | some v' =>
            rw [hlk] at h2
            simp only [Option.getD_some] at h2
            exact h.2 _ (lookupLots_mem hlk) l h2
      · rw [List.mem_singleton.mp h2]
        rfl

lemma WFopen_closeLotsFifo (o : OpenLots) (sym : String) (txn : Transaction)
    (w : List Warning) (h : WFopen o) :
    WFopen (closeLotsFifo o sym txn w).1 := by
  unfold closeLotsFifo
  cases hlk : lookupLots o sym with
  | none => exact h
  | some lots =>
      cases lots with
      | nil => exact h
      | cons lot rest =>
          simp only
          constructor
          · exact nodup_keys_setLots sym _ h.1
          · intro p hp l hl
            obtain ⟨s, v⟩ := p
            rcases mem_setLots hp with h1 | h1
            · exact h.2 _ h1 l hl
            · injection h1 with h1 h2
              subst h1
              subst h2
              refine consumeFifo_forall ?_ txn.quantity (lot :: rest)
                (h.2 _ (lookupLots_mem hlk)) l hl
              intro lot' r hsym _ _
              exact hsym

lemma closeLotsFifo_cons_fst (o : OpenLots) (sym : String)
    (txn : Transaction) (w : List Warning) (lot : TaxLot) (rest : List TaxLot)
    (hlk : lookupLots o sym = some (lot :: rest)) :
    (closeLotsFifo o sym txn w).1 =
      setLots o sym (consumeFifo txn.quantity (lot :: rest)).2 := by
  unfold closeLotsFifo
  rw [hlk]

lemma closeLotsFifo_cons_snd (o : OpenLots) (sym : String)
    (txn : Transaction) (w : List Warning) (lot : TaxLot) (rest : List TaxLot)
    (hlk : lookupLots o sym = some (lot :: rest)) :
    (closeLotsFifo o sym txn w).2 =
      if 0 < (consumeFifo txn.quantity (lot :: rest)).1 then
        w ++ [Warning.unmatched sym (consumeFifo txn.quantity (lot :: rest)).1
          txn.activity_date]
      else w := by
  unfold closeLotsFifo
  rw [hlk]

lemma closeLotsFifo_openQty (o : OpenLots) (sym : String) (txn : Transaction)
    (w : List Warning) (hpos : LotsProp (fun l => 0 ≤ l.quantity) o)
    (hq : 0 ≤ txn.quantity) (hle : txn.quantity ≤ openQty o sym) :
    ∀ s, openQty (closeLotsFifo o sym txn w).1 s =
      openQty o s - (if sym = s then txn.quantity else 0) := by
  intro s
  unfold closeLotsFifo
  cases hlk : lookupLots o sym with
  | none =>
      have hzero : openQty o sym = 0 := by
        unfold openQty
        rw [hlk]
        rfl
      have : txn.quantity = 0 := le_antisymm (hzero ▸ hle) hq
      simp only
      rw [this]
      simp
  | some lots =>
      cases lots with
      | nil =>
          have hzero : openQty o sym = 0 := by
            unfold openQty
            rw [hlk]
            rfl
          have : txn.quantity = 0 := le_antisymm (hzero ▸ hle) hq
          simp only
          rw [this]
          simp
      | cons lot rest =>
          have hbucket : openQty o sym = lotsQtySum (lot :: rest) := by
            unfold openQty
            rw [hlk]
            rfl
          have hsum := consumeFifo_sum txn.quantity (lot :: rest)
            (hpos _ (lookupLots_mem hlk)) hq (hbucket ▸ hle)
          simp only
          rw [openQty_setLots]
          by_cases hk : sym = s
          · subst hk
            rw [if_pos rfl, if_pos rfl, hsum.2, hbucket]
          · rw [if_neg hk, if_neg hk, sub_zero]

/-! ## Supporting lemmas: bought and sold quantities -/

lemma boughtQty_nil (s : String) : boughtQty [] s = 0 := rfl

lemma soldQty_nil (s : String) : soldQty [] s = 0 := rfl

lemma boughtQty_cons (t : Transaction) (l : List Transaction) (s : String) :
    boughtQty (t :: l) s =
      (if (t.trans_code = .BUY ∨ t.trans_code = .BTO) ∧ t.instrument = s
        then t.quantity else 0) + boughtQty l s := by
  unfold boughtQty
  rw [List.filter_cons]
  by_cases h : (t.trans_code = .BUY ∨ t.trans_code = .BTO) ∧ t.instrument = s
  · simp [h]
  · simp [h]

lemma soldQty_cons (t : Transaction) (l : List Transaction) (s : String) :
    soldQty (t :: l) s =
      (if (t.trans_code = .SELL ∨ t.trans_code = .STC) ∧ t.instrument = s
        then t.quantity else 0) + soldQty l s := by
  unfold soldQty
  rw [List.filter_cons]
  by_cases h : (t.trans_code = .SELL ∨ t.trans_code = .STC) ∧ t.instrument = s
  · simp [h]
  · simp [h]

lemma boughtQty_perm {l1 l2 : List Transaction} (h : l1.Perm l2) (s : String) :
    boughtQty l1 s = boughtQty l2 s :=
  List.Perm.sum_eq ((h.filter _).map _)

lemma soldQty_perm {l1 l2 : List Transaction} (h : l1.Perm l2) (s : String) :
    soldQty l1 s = soldQty l2 s :=
  List.Perm.sum_eq ((h.filter _).map _)

/-! ## Supporting lemmas: sorting is a permutation -/

lemma insertByDate_perm (x : Transaction) (l : List Transaction) :
    (insertByDate x l).Perm (x :: l) := by
  induction l with
  | nil => exact List.Perm.refl _
  | cons y ys ih =>
      simp only [insertByDate]
      split
      · exact List.Perm.refl _
      · exact List.Perm.trans (List.Perm.cons y ih) (List.Perm.swap x y ys)

lemma sortTxnsByDate_perm (txs : List Transaction) :
    (sortTxnsByDate txs).Perm txs := by
  induction txs with
  | nil => exact List.Perm.refl _
  | cons t rest ih =>
      unfold sortTxnsByDate
      rw [List.foldr_cons]
      exact List.Perm.trans (insertByDate_perm t _)
        (List.Perm.cons t ih)

/-! ## Supporting lemmas: flattening the open-lots table -/

lemma mem_flattenLots {l : TaxLot} {o : OpenLots} :
    l ∈ flattenLots o ↔ ∃ p ∈ o, l ∈ p.2 := by
  unfold flattenLots
  rw [List.mem_flatten]
  constructor
  · rintro ⟨ls, hls, hl⟩
    obtain ⟨p, hp, hse⟩ := List.mem_map.mp hls
    exact ⟨p, hp, hse ▸ hl⟩
  · rintro ⟨p, hp, hl⟩
    exact ⟨p.2, List.mem_map_of_mem Prod.snd hp, hl⟩

lemma symQtySum_allmem {lots : List TaxLot} {s : String}
    (h : ∀ l ∈ lots, l.symbol = s) : symQtySum lots s = lotsQtySum lots := by
  unfold symQtySum
  congr 1
  rw [List.filter_eq_self]
  intro l hl
  simpa using h l hl

lemma symQtySum_nomem {lots : List TaxLot} {s : String}
    (h : ∀ l ∈ lots, l.symbol ≠ s) : symQtySum lots s = 0 := by
  unfold symQtySum
  rw [List.filter_eq_nil_iff.mpr fun l hl => by simpa using h l hl]
  rfl

lemma symQtySum_append (a b : List TaxLot) (s : String) :
    symQtySum (a ++ b) s = symQtySum a s + symQtySum b s := by
  unfold symQtySum
  rw [List.filter_append, lotsQtySum_append]

lemma symQtySum_flatten {o : OpenLots} (hWF : WFopen o) (s : String) :
    symQtySum (flattenLots o) s = openQty o s := by
  induction o with
  | nil => rfl
  | cons p rest ih =>
      obtain ⟨k, v⟩ := p
      have hWFr : WFopen rest := by
        refine ⟨?_, fun q hq => hWF.2 q (List.mem_cons_of_mem _ hq)⟩
        have := hWF.1
        rw [List.map_cons, List.nodup_cons] at this
        exact this.2
      have hbucket : ∀ l ∈ v, l.symbol = k :=
        hWF.2 (k, v) (List.mem_cons_self _ _)
      have hflat : flattenLots ((k, v) :: rest) = v ++ flattenLots rest := by
        unfold flattenLots
        rw [List.map_cons, List.flatten_cons]
      rw [hflat, symQtySum_append]
      by_cases hk : k = s
      · subst hk
        have hnotin : k ∉ rest.map Prod.fst := by
          have := hWF.1
          rw [List.map_cons, List.nodup_cons] at this
          exact this.1
        have hrest0 : openQty rest k = 0 := by
          unfold openQty
          rw [(lookupLots_eq_none rest k).mpr hnotin]
          rfl
        rw [symQtySum_allmem hbucket, ih hWFr, hrest0]
        unfold openQty
        simp [lookupLots]
      · have hbucket0 : symQtySum v s = 0 :=
          symQtySum_nomem fun l hl => (hbucket l hl).symm ▸ hk
        rw [hbucket0, ih hWFr]
        unfold openQty
        simp [lookupLots, hk]

/-! ## Supporting lemmas: the aggregation loop -/

lemma processTxns_LotsProp {P : TaxLot → Prop}
    (hP : ∀ (lot : TaxLot) (r : ℚ), P lot → 0 < r → r < lot.quantity →
      P { lot with
            quantity := lot.quantity - r
            total_cost_basis := lot.cost_basis_per_share * (lot.quantity - r) })
    (txs : List Transaction) :
    ∀ (o : OpenLots) (w : List Warning) (o' : OpenLots) (w' : List Warning),
      (∀ t ∈ txs, P (newLotOf t.instrument t none)) →
      LotsProp P o → processTxns txs o w = .ok (o', w') → LotsProp P o' := by
  induction txs with
  | nil =>
      intro o w o' w' _ hprop heq
      simp only [processTxns] at heq
      injection heq with heq
      injection heq with h1 h2
      exact h1 ▸ hprop
  | cons t rest ih =>
      intro o w o' w' hnew hprop heq
      simp only [processTxns] at heq
      cases htc : t.trans_code <;> rw [htc] at heq <;>
        first
        | exact ih _ _ _ _ (fun x hx => hnew x (List.mem_cons_of_mem _ hx))
            (LotsProp_addLot hprop (hnew t (List.mem_cons_self _ _))) heq
        | exact ih _ _ _ _ (fun x hx => hnew x (List.mem_cons_of_mem _ hx))
            (LotsProp_closeLotsFifo hP _ _ _ _ hprop) heq
        | simp at heq

lemma processTxns_conserve (txs : List Transaction) :
    ∀ (o : OpenLots) (w : List Warning),
      (∀ t ∈ txs, t.trans_code = .BUY ∨ t.trans_code = .BTO ∨
        t.trans_code = .SELL ∨ t.trans_code = .STC) →
      (∀ t ∈ txs, 0 ≤ t.quantity) →
      WFopen o →
      LotsProp (fun l => 0 ≤ l.quantity) o →
      (∀ n s, soldQty (txs.take n) s ≤ openQty o s + boughtQty (txs.take n) s) →
      ∃ o' w', processTxns txs o w = .ok (o', w') ∧ WFopen o' ∧
        LotsProp (fun l => 0 ≤ l.quantity) o' ∧
        ∀ s, openQty o' s = openQty o s + boughtQty txs s - soldQty txs s := by
  induction txs with
  | nil =>
      intro o w _ _ hWF hpos _
      exact ⟨o, w, rfl, hWF, hpos, fun s => by
        rw [boughtQty_nil, soldQty_nil]; ring⟩
  | cons t rest ih =>
      intro o w hcode hq hWF hpos hdom
      have hnonneg : (0 : ℚ) ≤ t.quantity := hq t (List.mem_cons_self _ _)
      have hcode' := fun x hx => hcode x (List.mem_cons_of_mem _ hx)
      have hq' := fun x hx => hq x (List.mem_cons_of_mem _ hx)
      have buyStep : ∀ htc : t.trans_code = .BUY ∨ t.trans_code = .BTO,
          ∃ o' w',
            processTxns rest (addLot o t.instrument t none) w = .ok (o', w') ∧
            WFopen o' ∧ LotsProp (fun l => 0 ≤ l.quantity) o' ∧
            ∀ s, openQty o' s =
              openQty o s + boughtQty (t :: rest) s - soldQty (t :: rest) s := by
        intro htc
        have hWF1 := WFopen_addLot o t.instrument t none hWF
        have hpos1 : LotsProp (fun l => 0 ≤ l.quantity)
            (addLot o t.instrument t none) :=
          LotsProp_addLot hpos (by simpa [newLotOf] using hnonneg)
        have hdom1 : ∀ n s, soldQty (rest.take n) s ≤
            openQty (addLot o t.instrument t none) s +
              boughtQty (rest.take n) s := by
          intro n s
          have h := hdom (n + 1) s
          rw [List.take_succ_cons, soldQty_cons, boughtQty_cons] at h
          rw [openQty_addLot]
          rcases htc with htc | htc <;>
            by_cases hs : t.instrument = s <;>
            simp [htc, hs] at h ⊢ <;> linarith
        obtain ⟨o', w', heq, hWF', hpos', hcons⟩ :=
          ih (addLot o t.instrument t none) w hcode' hq' hWF1 hpos1 hdom1
        refine ⟨o', w', heq, hWF', hpos', fun s => ?_⟩
        rw [hcons s, openQty_addLot, boughtQty_cons, soldQty_cons]
        rcases htc with htc | htc <;>
          by_cases hs : t.instrument = s <;> simp [htc, hs] <;> ring
      have sellStep : ∀ htc : t.trans_code = .SELL ∨ t.trans_code = .STC,
          ∃ o' w',
            processTxns rest (closeLotsFifo o t.instrument t w).1
              (closeLotsFifo o t.instrument t w).2 = .ok (o', w') ∧
            WFopen o' ∧ LotsProp (fun l => 0 ≤ l.quantity) o' ∧
            ∀ s, openQty o' s =
              openQty o s + boughtQty (t :: rest) s - soldQty (t :: rest) s := by
        intro htc
        have hqle : t.quantity ≤ openQty o t.instrument := by
          have h := hdom 1 t.instrument
          rw [show (t :: rest).take 1 = [t] from rfl, soldQty_cons,
            boughtQty_cons, soldQty_nil, boughtQty_nil] at h
          rcases htc with htc | htc <;> simp [htc] at h <;> linarith
        have hWF1 := WFopen_closeLotsFifo o t.instrument t w hWF
        have hpos1 := LotsProp_closeLotsFifo
          (fun lot r _ _ hlt => by
            show (0 : ℚ) ≤ lot.quantity - r
            linarith)
          o t.instrument t w hpos
        have hQ := closeLotsFifo_openQty o t.instrument t w hpos hnonneg hqle
        have hdom1 : ∀ n s, soldQty (rest.take n) s ≤
            openQty (closeLotsFifo o t.instrument t w).1 s +
              boughtQty (rest.take n) s := by
          intro n s
          have h := hdom (n + 1) s
          rw [List.take_succ_cons, soldQty_cons, boughtQty_cons] at h
          rw [hQ s]
          rcases htc with htc | htc <;>
            by_cases hs : t.instrument = s <;>
            simp [htc, hs] at h ⊢ <;> linarith
        obtain ⟨o', w', heq, hWF', hpos', hcons⟩ :=
          ih (closeLotsFifo o t.instrument t w).1
            (closeLotsFifo o t.instrument t w).2 hcode' hq' hWF1 hpos1 hdom1
        refine ⟨o', w', heq, hWF', hpos', fun s => ?_⟩
        rw [hcons s, hQ s, boughtQty_cons, soldQty_cons]
        rcases htc with htc | htc <;>
          by_cases hs : t.instrument = s <;> simp [htc, hs] <;> ring
      rcases hcode t (List.mem_cons_self _ _) with htc | htc | htc | htc
      · obtain ⟨o', w', heq, h2, h3, h4⟩ := buyStep (Or.inl htc)
        exact ⟨o', w', by simp only [processTxns, htc]; exact heq, h2, h3, h4⟩
      · obtain ⟨o', w', heq, h2, h3, h4⟩ := buyStep (Or.inr htc)
        exact ⟨o', w', by simp only [processTxns, htc]; exact heq, h2, h3, h4⟩
      · obtain ⟨o', w', heq, h2, h3, h4⟩ := sellStep (Or.inl htc)
        exact ⟨o', w', by simp only [processTxns, htc]; exact heq, h2, h3, h4⟩
      · obtain ⟨o', w', heq, h2, h3, h4⟩ := sellStep (Or.inr htc)
        exact ⟨o', w', by simp only [processTxns, htc]; exact heq, h2, h3, h4⟩

/-! ## Claim theorems -/

/-- C3: in the proration rule of `detect_wash_sales` (wash_sale.py lines
134-142) the computed disallowed loss never exceeds the realized sale
loss; it equals the full loss exactly when the qualifying repurchase
quantity covers the sale quantity, and otherwise equals
`loss * (repurchase quantity / sale quantity)`.  (The `WashSaleFlag`
field additionally applies cents rounding to this value.) -/
theorem claim_C3 (loss saleQty repurchaseQty : ℚ) (hloss : 0 < loss)
    (hq : 0 < saleQty) :
    washDisallowed loss saleQty repurchaseQty ≤ loss ∧
    (saleQty ≤ repurchaseQty →
      washDisallowed loss saleQty repurchaseQty = loss) ∧
    (repurchaseQty < saleQty →
      washDisallowed loss saleQty repurchaseQty =
        loss * (repurchaseQty / saleQty)) := by
  unfold washDisallowed
  refine ⟨?_, fun h => by rw [if_pos h], fun h => by rw [if_neg (not_le.mpr h)]⟩
  split
  · exact le_refl loss
  case isFalse h =>
    have hlt : repurchaseQty < saleQty := lt_of_not_le h
    have hdiv : repurchaseQty / saleQty ≤ 1 := by
      rw [div_le_one hq]
      exact le_of_lt hlt
    calc loss * (repurchaseQty / saleQty) ≤ loss * 1 :=
          mul_le_mul_of_nonneg_left hdiv (le_of_lt hloss)
      _ = loss := mul_one loss

theorem claim_C3_witness :
    washDisallowed 10 5 3 ≤ 10 ∧
    ((5 : ℚ) ≤ 3 → washDisallowed 10 5 3 = 10) ∧
    ((3 : ℚ) < 5 → washDisallowed 10 5 3 = 10 * (3 / 5)) :=
  claim_C3 10 5 3 (by norm_num) (by norm_num)

/-- C4: `detect_wash_sales` is supposed to track, across the sells
processed in date order, how much of each buy earlier sells already
consumed (its own comment on the `used_buy_quantities` dictionary says
so), but the dictionary is never written.  On `exC4`, the first sell
consumes the whole first buy (5 @ 100, loss 250); the second sell should
then be matched against the second buy (5 @ 200, loss 750), yet the code
re-matches the first buy and reports a loss of 250 again. -/
theorem claim_C4 :
    (detect_wash_sales exC4).map WashSaleFlag.sale_loss = [250, 250] := by
  norm_num [detect_wash_sales, exC4, mkTxn, processSells, sellFlag,
    sortTxnsByDate, insertByDate, isBuyCode, isSellCode, sellCostBasis,
    usedGet, qualifyingRepurchases, repurchaseWindow, washDisallowed,
    minByDate, round2, roundHalfEven, qfloor, List.filter, List.enum,
    List.enumFrom, WASH_SALE_WINDOW_DAYS]

/-- C5: a purchase dated exactly on the sale date is supposed to qualify
as a wash-sale repurchase (the module's own test `test_same_day_included`
and the spec both say so), but the `b.activity_date != sell.activity_date`
filter of wash_sale.py line 117 discards it: on `exC5` the same-day buy
is inside the 61-day window yet the qualifying-repurchase list is empty
and no wash sale is flagged at all. -/
theorem claim_C5 :
    sameDayBuyC5.instrument = sellC5.instrument ∧
    sellC5.activity_date - WASH_SALE_WINDOW_DAYS ≤ sameDayBuyC5.activity_date ∧
    sameDayBuyC5.activity_date ≤ sellC5.activity_date + WASH_SALE_WINDOW_DAYS ∧
    qualifyingRepurchases sellC5
      (sortTxnsByDate (exC5.filter isBuyCode)) = [] ∧
    detect_wash_sales exC5 = [] := by
  norm_num [detect_wash_sales, exC5, sellC5, sameDayBuyC5, mkTxn,
    processSells, sellFlag, sortTxnsByDate, insertByDate, isBuyCode,
    isSellCode, sellCostBasis, usedGet, qualifyingRepurchases,
    repurchaseWindow, washDisallowed, minByDate, round2, roundHalfEven,
    qfloor, List.filter, List.enum, List.enumFrom, WASH_SALE_WINDOW_DAYS]

/-- C6: a SELL_TO_OPEN transaction is supposed to append a new OPTION lot
(spec and tests agree), but `transactions_to_tax_lots` never returns on
such input: the `elif` chain evaluates `TransCode.OASGN`, which
`models.py` does not define, so Python raises `AttributeError` instead of
creating the lot. -/
theorem claim_C6 :
    transactions_to_tax_lots [exC6sto] = .error attrErr := rfl

/-- C8: a loss lot whose own symbol was bought within the trailing 30
days is supposed to be excluded from the suggestion list entirely (the
module's own test `test_wash_sale_risk_excluded` asserts zero
suggestions), but `generate_suggestions` includes it and merely sets
`wash_sale_risk`: on `lotC8`/`buyC8` the returned list has exactly one
suggestion, for that very symbol, with the risk flag set. -/
theorem claim_C8 :
    (generate_suggestions 100 [lotC8] [buyC8] {} none).map
      (fun s => (s.symbol, s.wash_sale_risk)) = [("AAPL", true)] := by
  norm_num [generate_suggestions, lotC8, buyC8, mkTxn, isLossLot,
    mkSuggestion, withPriorities, sortBySavings, insertBySavings,
    check_prospective_wash_sale_risk, maxByDate, calculate_tax_savings,
    calculate_tax_on_gain, check_niit, get_marginal_ordinary_rate,
    get_ltcg_rate, get_ordinary_brackets, get_ltcg_brackets,
    ORDINARY_BRACKETS_2025, LTCG_BRACKETS_2025, rateFromBrackets,
    NIIT_THRESHOLDS, NIIT_RATE, getReplacements, getAiExplanation,
    FALLBACK_REPLACEMENTS, round2, roundHalfEven, qfloor, List.filter,
    WASH_SALE_WINDOW_DAYS]

/-- C9: `calculate_tax_savings` returns exactly 0 for every non-positive
loss, for every long/short-term flag and every tax profile, and its
result is never negative. -/
theorem claim_C9 (loss : ℚ) (is_long_term : Bool) (profile : TaxProfile) :
    (loss ≤ 0 → calculate_tax_savings loss is_long_term profile = 0) ∧
    0 ≤ calculate_tax_savings loss is_long_term profile := by
  constructor
  · intro h
    simp [calculate_tax_savings, h]
  · unfold calculate_tax_savings
    split
    · exact le_refl 0
    · exact abs_nonneg _

theorem claim_C9_witness :
    (calculate_tax_savings (-250) false {} = 0) ∧
    0 ≤ calculate_tax_savings (-250) false {} :=
  ⟨(claim_C9 (-250) false {}).1 (by norm_num), (claim_C9 (-250) false {}).2⟩

/-- C10: on a lot with no current price, `compute_lot_metrics` only adds
the holding-period fields — the result is the input lot with
`holding_period_days = reference_date - purchase_date` and
`is_long_term = (holding_period_days > 365)` and every other field,
including the still-unset unrealized P&L fields, unchanged. -/
theorem claim_C10 (reference_date : Int) (lots : List TaxLot) (i : Nat)
    (lot : TaxLot) (hget : lots[i]? = some lot)
    (hcp : lot.current_price = none) :
    (compute_lot_metrics lots reference_date)[i]? = some
      { lot with
          holding_period_days := some (reference_date - lot.purchase_date)
          is_long_term :=
            some (decide (365 < reference_date - lot.purchase_date)) } := by
  simp [compute_lot_metrics, List.getElem?_map, hget, computeLotMetricsOne, hcp]

theorem claim_C10_witness :
    (compute_lot_metrics
        [{ symbol := "X", quantity := 1, cost_basis_per_share := 2,
           total_cost_basis := 2, purchase_date := 0 }] 400)[0]? = some
      { symbol := "X", quantity := 1, cost_basis_per_share := 2,
        total_cost_basis := 2, purchase_date := 0,
        holding_period_days := some 400, is_long_term := some true } := by
  have h := claim_C10 400
    [{ symbol := "X", quantity := 1, cost_basis_per_share := 2,
       total_cost_basis := 2, purchase_date := 0 }] 0
    { symbol := "X", quantity := 1, cost_basis_per_share := 2,
      total_cost_basis := 2, purchase_date := 0 } (by decide) (by decide)
  simpa using h

lemma adjustFirstLot_ident (f : WashSaleFlag) (lots : List TaxLot)
    (h : ∀ l ∈ lots, costBasisIdent l) :
    ∀ l ∈ adjustFirstLot f lots, costBasisIdent l := by
  induction lots with
  | nil => simp [adjustFirstLot]
  | cons lot rest ih =>
      simp only [adjustFirstLot]
      split
      · intro l hl
        rcases List.mem_cons.mp hl with h1 | h1
        · subst h1; rfl
        · exact h l (List.mem_cons_of_mem _ h1)
      · intro l hl
        rcases List.mem_cons.mp hl with h1 | h1
        · rw [h1]; exact h lot (List.mem_cons_self _ _)
        · exact ih (fun x hx => h x (List.mem_cons_of_mem _ hx)) l h1

/-- C1 counterexample: on `exC1` total bought equals total sold for "A"
(difference 0), yet the returned open lots for "A" sum to 5, because the
date-sorted processing meets the sell before any lot is open and merely
warns. -/
theorem claim_C1_counterexample :
    boughtQty exC1 "A" - soldQty exC1 "A" = 0 ∧
    (transactions_to_tax_lots exC1).toOption.map
      (fun r => symQtySum r.1 "A") = some 5 := by
  constructor
  · simp only [exC1]
    rw [boughtQty_cons, boughtQty_cons, boughtQty_nil, soldQty_cons,
      soldQty_cons, soldQty_nil]
    simp [mkTxn]
  · norm_num [exC1, mkTxn, transactions_to_tax_lots, sortTxnsByDate,
      insertByDate, processTxns, closeLotsFifo, lookupLots, addLot, setLots,
      newLotOf, consumeFifo, flattenLots, symQtySum, lotsQtySum, List.filter,
      Except.toOption]

/-- C1 (amended): for a transaction list of BUY/BTO/SELL/STC records with
non-negative quantities in which, per symbol, every prefix of the
date-sorted sequence has cumulative sold quantity at most cumulative
bought quantity, `transactions_to_tax_lots` succeeds and the returned open
lots sum, per symbol, to exactly total bought minus total sold. -/
theorem claim_C1 (txs : List Transaction)
    (hcode : ∀ t ∈ txs, t.trans_code = .BUY ∨ t.trans_code = .BTO ∨
      t.trans_code = .SELL ∨ t.trans_code = .STC)
    (hq : ∀ t ∈ txs, 0 ≤ t.quantity)
    (hdom : ∀ n s, soldQty ((sortTxnsByDate txs).take n) s ≤
      boughtQty ((sortTxnsByDate txs).take n) s) :
    ∃ lots warns, transactions_to_tax_lots txs = .ok (lots, warns) ∧
      ∀ s, symQtySum lots s = boughtQty txs s - soldQty txs s := by
  have hperm := sortTxnsByDate_perm txs
  obtain ⟨o', w', heq, hWF', _, hcons⟩ := processTxns_conserve
    (sortTxnsByDate txs) [] []
    (fun t ht => hcode t (hperm.subset ht))
    (fun t ht => hq t (hperm.subset ht))
    ⟨List.nodup_nil, fun p hp => absurd hp (List.not_mem_nil p)⟩
    (fun p hp => absurd hp (List.not_mem_nil p))
    (fun n s => by
      have h := hdom n s
      simpa [openQty, lookupLots, lotsQtySum] using h)
  refine ⟨flattenLots o', w', ?_, fun s => ?_⟩
  · unfold transactions_to_tax_lots
    rw [heq]
  · rw [symQtySum_flatten hWF' s, hcons s, boughtQty_perm hperm s,
      soldQty_perm hperm s]
    simp [openQty, lookupLots, lotsQtySum]

theorem claim_C1_witness :
    ∃ lots warns,
      transactions_to_tax_lots [mkTxn 0 "A" .BUY 5 10] = .ok (lots, warns) ∧
      ∀ s, symQtySum lots s =
        boughtQty [mkTxn 0 "A" .BUY 5 10] s -
          soldQty [mkTxn 0 "A" .BUY 5 10] s := by
  apply claim_C1
  · intro t ht
    simp only [List.mem_singleton] at ht
    subst ht
    left
    rfl
  · intro t ht
    simp only [List.mem_singleton] at ht
    subst ht
    norm_num [mkTxn]
  · intro n s
    have hsort : sortTxnsByDate [mkTxn 0 "A" .BUY 5 10] =
        [mkTxn 0 "A" .BUY 5 10] := rfl
    rw [hsort]
    cases n with
    | zero => simp [soldQty, boughtQty]
    | succ n =>
        rw [List.take_succ_cons, List.take_nil, soldQty_cons, boughtQty_cons,
          soldQty_nil, boughtQty_nil]
        simp [mkTxn]
        split_ifs <;> norm_num

/-- C2: every mutation of a tax lot preserves the cost-basis identity
`total_cost_basis = cost_basis_per_share * quantity`: every lot returned
by `transactions_to_tax_lots` (which creates lots and partially closes
them in FIFO order) satisfies it, `adjust_lots_for_wash_sales` preserves
it, and `_remove_lots_fifo` preserves it on the open-lots table. -/
theorem claim_C2 :
    (∀ txs lots warns, transactions_to_tax_lots txs = .ok (lots, warns) →
      ∀ l ∈ lots, costBasisIdent l) ∧
    (∀ lots flags, (∀ l ∈ lots, costBasisIdent l) →
      ∀ l ∈ adjust_lots_for_wash_sales lots flags, costBasisIdent l) ∧
    (∀ o sym q, LotsProp costBasisIdent o →
      LotsProp costBasisIdent (remove_lots_fifo o sym q)) := by
  have hshrink : ∀ (lot : TaxLot) (r : ℚ), costBasisIdent lot → 0 < r →
      r < lot.quantity →
      costBasisIdent
        { lot with
            quantity := lot.quantity - r
            total_cost_basis :=
              lot.cost_basis_per_share * (lot.quantity - r) } :=
    fun lot r _ _ _ => rfl
  refine ⟨?_, ?_, ?_⟩
  · intro txs lots warns heq l hl
    unfold transactions_to_tax_lots at heq
    cases hp : processTxns (sortTxnsByDate txs) [] [] with
    | error e => rw [hp] at heq; simp at heq
    | ok r =>
        obtain ⟨o', w'⟩ := r
        rw [hp] at heq
        simp only [Except.ok.injEq, Prod.mk.injEq] at heq
        obtain ⟨h1, -⟩ := heq
        have hLP := processTxns_LotsProp hshrink (sortTxnsByDate txs) [] []
          o' w' (fun t _ => rfl)
          (fun p hp' => absurd hp' (List.not_mem_nil p)) hp
        subst h1
        obtain ⟨p, hpmem, hlmem⟩ := mem_flattenLots.mp hl
        exact hLP p hpmem l hlmem
  · intro lots flags h
    unfold adjust_lots_for_wash_sales
    induction flags generalizing lots with
    | nil => simpa using h
    | cons f fs ih =>
        rw [List.foldl_cons]
        exact ih _ (adjustFirstLot_ident f lots h)
  · intro o sym q h
    unfold remove_lots_fifo
    cases hlk : lookupLots o sym with
    | none => exact h
    | some lots =>
        exact LotsProp_setLots h
          (removeFifo_forall hshrink q lots (h _ (lookupLots_mem hlk)))

theorem claim_C2_witness :
    lotWadj.total_cost_basis = lotWadj.cost_basis_per_share * lotWadj.quantity := by
  have hmem : lotWadj ∈ adjust_lots_for_wash_sales [lotW] [flagW] := by
    norm_num [adjust_lots_for_wash_sales, adjustFirstLot, lotW, flagW, lotWadj]
  exact claim_C2.2.1 [lotW] [flagW]
    (by
      intro l hl
      simp only [List.mem_singleton] at hl
      subst hl
      show lotW.total_cost_basis = lotW.cost_basis_per_share * lotW.quantity
      norm_num [lotW])
    lotWadj hmem

/-- C7: sells that exceed the open quantity are handled without failure or
negative quantities: (a) whenever `transactions_to_tax_lots` returns, all
returned lots have non-negative quantity; (b) `_close_lots_fifo`, on a
sell exceeding the open quantity for the symbol, appends exactly one
warning — the "no open lots found" message when nothing is open, else the
"could not be matched" message carrying the unmatched remainder — drains
the symbol's open quantity to zero, and keeps every remaining lot
quantity non-negative. -/
theorem claim_C7 :
    (∀ txs lots warns, (∀ t ∈ txs, 0 ≤ t.quantity) →
      transactions_to_tax_lots txs = .ok (lots, warns) →
      ∀ l ∈ lots, 0 ≤ l.quantity) ∧
    (∀ (o : OpenLots) (sym : String) (txn : Transaction) (w : List Warning),
      LotsProp (fun l => 0 ≤ l.quantity) o →
      openQty o sym < txn.quantity →
      (closeLotsFifo o sym txn w).2 = w ++
        [if ((lookupLots o sym).getD []).isEmpty then
          Warning.noOpenLots sym txn.quantity txn.activity_date
         else Warning.unmatched sym (txn.quantity - openQty o sym)
          txn.activity_date] ∧
      openQty (closeLotsFifo o sym txn w).1 sym = 0 ∧
      LotsProp (fun l => 0 ≤ l.quantity) (closeLotsFifo o sym txn w).1) := by
  constructor
  · intro txs lots warns hq heq l hl
    unfold transactions_to_tax_lots at heq
    cases hp : processTxns (sortTxnsByDate txs) [] [] with
    | error e => rw [hp] at heq; simp at heq
    | ok r =>
        obtain ⟨o', w'⟩ := r
        rw [hp] at heq
        simp only [Except.ok.injEq, Prod.mk.injEq] at heq
        obtain ⟨h1, -⟩ := heq
        have hperm := sortTxnsByDate_perm txs
        have hLP := processTxns_LotsProp (P := fun l => 0 ≤ l.quantity)
          (fun lot r _ _ hlt => by
            show (0 : ℚ) ≤ lot.quantity - r
            linarith)
          (sortTxnsByDate txs) [] [] o' w'
          (fun t ht => by simpa [newLotOf] using hq t (hperm.subset ht))
          (fun p hp' => absurd hp' (List.not_mem_nil p)) hp
        subst h1
        obtain ⟨p, hpmem, hlmem⟩ := mem_flattenLots.mp hl
        exact hLP p hpmem l hlmem
  · intro o sym txn w hpos hlt
    rcases hlk : lookupLots o sym with _ | lots
    · have hzero : openQty o sym = 0 := by
        unfold openQty
        rw [hlk]
        rfl
      refine ⟨?_, ?_, ?_⟩
      · unfold closeLotsFifo
        rw [hlk]
        rfl
      · unfold closeLotsFifo
        rw [hlk]
        exact hzero
      · unfold closeLotsFifo
        rw [hlk]
        exact hpos
    · cases lots with
      | nil =>
          have hzero : openQty o sym = 0 := by
            unfold openQty
            rw [hlk]
            rfl
          refine ⟨?_, ?_, ?_⟩
          · unfold closeLotsFifo
            rw [hlk]
            rfl
          · unfold closeLotsFifo
            rw [hlk]
            exact hzero
          · unfold closeLotsFifo
            rw [hlk]
            exact hpos
      | cons lot rest =>
          have hbucket : openQty o sym = lotsQtySum (lot :: rest) := by
            unfold openQty
            rw [hlk]
            rfl
          have hposB : ∀ l ∈ lot :: rest, (0 : ℚ) ≤ l.quantity :=
            hpos _ (lookupLots_mem hlk)
          have hex := consumeFifo_excess txn.quantity (lot :: rest) hposB
            (hbucket ▸ hlt)
          have hrem : 0 < txn.quantity - lotsQtySum (lot :: rest) := by
            rw [hbucket] at hlt
            linarith
          refine ⟨?_, ?_, ?_⟩
          · rw [closeLotsFifo_cons_snd o sym txn w lot rest hlk, hex, hbucket]
            rw [if_pos hrem]
            rfl
          · rw [closeLotsFifo_cons_fst o sym txn w lot rest hlk, hex,
              openQty_setLots, if_pos rfl]
            rfl
          · rw [closeLotsFifo_cons_fst o sym txn w lot rest hlk, hex]
            exact LotsProp_setLots hpos (by simp)

theorem claim_C7_witness :
    (closeLotsFifo oW "A" sellW []).2 = [] ++
      [if ((lookupLots oW "A").getD []).isEmpty then
        Warning.noOpenLots "A" sellW.quantity sellW.activity_date
       else Warning.unmatched "A" (sellW.quantity - openQty oW "A")
        sellW.activity_date] ∧
    openQty (closeLotsFifo oW "A" sellW []).1 "A" = 0 ∧
    LotsProp (fun l => 0 ≤ l.quantity) (closeLotsFifo oW "A" sellW []).1 :=
  claim_C7.2 oW "A" sellW []
    (by
      intro p hp l hl
      simp only [oW, List.mem_singleton] at hp
      subst hp
      simp only [List.mem_singleton] at hl
      subst hl
      norm_num [lotOW])
    (by norm_num [openQty, oW, lookupLots, lotsQtySum, lotOW, sellW, mkTxn])

end OptionsTaxHub
